import Mathlib

/-!
# Verification of the py4cl guest process (src/py4cl.py)

This file gives a shallow embedding of the guest-side core of py4cl:
the value marshaler (`lispify` and friends), the framing layer
(`send_value`, `return_value`, `return_error`), the handle table
(`python_objects` / `python_handle`), the message dispatch loop
(`message_dispatch_loop`) and the callback proxy
(`LispCallbackObject.__call__`), together with theorems settling the
specification claims about them.

Machine integers do not occur: Python integers are unbounded, so they are
modelled by `Int`/`Nat` directly.  Python floats and complex numbers are
floating point and are left out of the value model; no claim settled here
depends on them.  Exceptions are modelled with `Except`.
-/

namespace Py4cl

/-! ## Decimal printing (Python `str` of an integer) and parsing -/

/-- Decimal digits of `n`, least significant first, with `fuel` bounding the
recursion depth (`fuel = n` always suffices because a positive number has at
most `n` digits).  This is the canonical decimal representation computed by
Python's `str` on a non-negative `int`. -/
def natDigitsFuel : Nat → Nat → List Char
  | 0, _ => []
  | _ + 1, 0 => []
  | fuel + 1, n + 1 =>
    Nat.digitChar ((n + 1) % 10) :: natDigitsFuel fuel ((n + 1) / 10)

/-- Python `str` of a non-negative integer: its decimal representation. -/
def pyNatStr (n : Nat) : String :=
  if n = 0 then "0" else String.mk (natDigitsFuel n n).reverse

/-- Python `str` of an integer (used by the `int` entry of `lispifiers`):
optional minus sign followed by the decimal digits. -/
def pyIntStr (n : Int) : String :=
  if n < 0 then "-" ++ pyNatStr n.natAbs else pyNatStr n.toNat

/-- Read one decimal digit. -/
def charToDigit (c : Char) : Option Nat :=
  if '0' ≤ c ∧ c ≤ '9' then some (c.toNat - '0'.toNat) else none

/-- Accumulating decimal parse over a most-significant-first digit list;
fails on any non-digit character. -/
def parseNatAux : List Char → Nat → Option Nat
  | [], acc => some acc
  | c :: cs, acc =>
    match charToDigit c with
    | some d => parseNatAux cs (acc * 10 + d)
    | none => none

/-- Parse a non-empty all-digit character list as a natural number. -/
def parseNatChars (l : List Char) : Option Nat :=
  if l.isEmpty then none else parseNatAux l 0

/-! ## The value model

Guest-side runtime values, as far as the marshaler distinguishes them.
`exc` is an `Exception` instance whose `str` is the carried message;
`excBadStr` is an `Exception` instance whose `__str__` method itself raises
(carrying the raised message) — the one way the encoding machinery of
`lispify` can throw within this model.  `unknownObj` is a value of a type
with no entry in `lispifiers` and outside the numeric base classes, so it
takes the opaque-handle fallback.  `unknownLisp` is an `UnknownLispObject`.
Lists inside values are represented by the mutual types `PyObjList` and
`PyKvList` so that all recursion below is structural. -/

mutual

inductive PyObj : Type where
  | none : PyObj
  | bool (b : Bool) : PyObj
  | int (n : Int) : PyObj
  | str (s : String) : PyObj
  | symbol (name : String) : PyObj
  | tuple (elts : PyObjList) : PyObj
  | list (elts : PyObjList) : PyObj
  | dict (items : PyKvList) : PyObj
  | exc (msg : String) : PyObj
  | excBadStr (msg : String) : PyObj
  | unknownLisp (lisptype : String) (handle : Nat) : PyObj
  | unknownObj (typename : String) : PyObj

inductive PyObjList : Type where
  | nil : PyObjList
  | cons (head : PyObj) (tail : PyObjList) : PyObjList

inductive PyKvList : Type where
  | nil : PyKvList
  | cons (key : PyObj) (value : PyObj) (rest : PyKvList) : PyKvList

end

/-- Python `isinstance(obj, Exception)`. -/
def PyObj.isExc : PyObj → Bool
  | .exc _ => true
  | .excBadStr _ => true
  | _ => false

/-- Python `str(type(obj))`, used in the opaque-handle wire form. -/
def pyTypeStr : PyObj → String
  | .none => "<class 'NoneType'>"
  | .bool _ => "<class 'bool'>"
  | .int _ => "<class 'int'>"
  | .str _ => "<class 'str'>"
  | .symbol _ => "<class '__main__.Symbol'>"
  | .tuple _ => "<class 'tuple'>"
  | .list _ => "<class 'list'>"
  | .dict _ => "<class 'dict'>"
  | .exc _ => "<class 'Exception'>"
  | .excBadStr _ => "<class 'Exception'>"
  | .unknownLisp _ _ => "<class '__main__.UnknownLispObject'>"
  | .unknownObj t => t

/-! ## Process state

The mutable globals of the guest process that the claims are about:
`return_values` (the return-mode counter, a signed integer decremented
without a floor by the `o` command), `python_handle` (the
`itertools.count(0)` allocation counter: `next` yields the current value
and increments) and `python_objects` (the handle table, newest entry
first). -/

structure GuestState where
  return_values : Int
  python_handle : Nat
  python_objects : List (Nat × PyObj)

/-- The state at process start: counter 0, no handles allocated. -/
def initState : GuestState := ⟨0, 0, []⟩

/-- `next(python_handle)` plus the store `python_objects[handle] = obj`. -/
def allocate (s : GuestState) (obj : PyObj) : Nat × GuestState :=
  (s.python_handle,
   { s with
       python_handle := s.python_handle + 1,
       python_objects := (s.python_handle, obj) :: s.python_objects })

/-- `lispify_handle` (src/py4cl.py lines 218-224): store the object under a
fresh handle and emit the reconstruction-call wire form. -/
def lispify_handle (s : GuestState) (obj : PyObj) : String × GuestState :=
  let (handle, s') := allocate s obj
  ("#.(py4cl2::make-python-object-finalize :type \"" ++ pyTypeStr obj
      ++ "\" :handle " ++ pyNatStr handle ++ ")", s')

/-! ## String escaping

The `str` entry of `lispifiers` is
`x.replace("\\", "\\\\").replace("\"", "\\\"")` wrapped in quotes: all
backslashes are doubled, then every double quote gets a backslash in front.
Because the second pass only rewrites quote characters and the first pass
never produces one, the two sequential passes equal this single
character-wise pass. -/

def escChars : List Char → List Char
  | [] => []
  | c :: cs =>
    if c = '\\' then '\\' :: '\\' :: escChars cs
    else if c = '"' then '\\' :: '"' :: escChars cs
    else c :: escChars cs

/-- The escaped body of the wire form of a Python string. -/
def escapeString (t : String) : String := String.mk (escChars t.data)

/-! ## The marshaler `lispify`

Faithful to src/py4cl.py lines 226-246: if `return_values > 0`, exceptions
are rendered as their `str` and everything else takes the handle path;
otherwise exceptions render as their `str`, `lispifiers[type(obj)]` is
applied, a `KeyError` (unregistered type) falls back to the numeric check
and then to the handle path.  Exceptions other than `KeyError` raised
while encoding (modelled: `excBadStr`, whose `str` raises) propagate out.
State is threaded because the handle path allocates; an error result still
carries the state mutated so far. -/

mutual

def lispify (s : GuestState) (obj : PyObj) : Except String String × GuestState :=
  if s.return_values > 0 then
    match obj with
    | .exc m => (.ok m, s)
    | .excBadStr m => (.error m, s)
    | _ =>
      let (t, s') := lispify_handle s obj
      (.ok t, s')
  else
    match obj with
    | .exc m => (.ok m, s)
    | .excBadStr m => (.error m, s)
    | .none => (.ok "\"None\"", s)
    | .bool b => (.ok (if b then "T" else "NIL"), s)
    | .int n => (.ok (pyIntStr n), s)
    | .str t => (.ok ("\"" ++ escapeString t ++ "\""), s)
    | .symbol name => (.ok name, s)
    | .list elts =>
      match lispifyMany s elts with
      | (.ok parts, s') => (.ok ("#(" ++ String.intercalate " " parts ++ ")"), s')
      | (.error e, s') => (.error e, s')
    | .tuple .nil => (.ok "\"()\"", s)
    | .tuple (.cons x xs) =>
      match lispifyMany s (.cons x xs) with
      | (.ok parts, s') => (.ok ("(" ++ String.intercalate " " parts ++ ")"), s')
      | (.error e, s') => (.error e, s')
    | .dict items =>
      match lispifyKvs s items with
      | (.ok parts, s') =>
        (.ok ("#.(let ((table (make-hash-table :test (quote equal)))) "
              ++ String.intercalate " " parts ++ " table)"), s')
      | (.error e, s') => (.error e, s')
    | .unknownLisp _ h => (.ok ("#.(py4cl2::lisp-object " ++ pyNatStr h ++ ")"), s)
    | .unknownObj _ =>
      let (t, s') := lispify_handle s obj
      (.ok t, s')

def lispifyMany (s : GuestState) (elts : PyObjList) :
    Except String (List String) × GuestState :=
  match elts with
  | .nil => (.ok [], s)
  | .cons x xs =>
    match lispify s x with
    | (.ok t, s1) =>
      match lispifyMany s1 xs with
      | (.ok ts, s2) => (.ok (t :: ts), s2)
      | (.error e, s2) => (.error e, s2)
    | (.error e, s1) => (.error e, s1)

def lispifyKvs (s : GuestState) (items : PyKvList) :
    Except String (List String) × GuestState :=
  match items with
  | .nil => (.ok [], s)
  | .cons k v rest =>
    match lispify s k with
    | (.ok kt, s1) =>
      match lispify s1 v with
      | (.ok vt, s2) =>
        match lispifyKvs s2 rest with
        | (.ok ts, s3) =>
          (.ok (("(setf (gethash " ++ kt ++ " table) " ++ vt ++ ")") :: ts), s3)
        | (.error e, s3) => (.error e, s3)
      | (.error e, s2) => (.error e, s2)
    | (.error e, s1) => (.error e, s1)

end

/-! ## Framing (`send_value`, src/py4cl.py lines 271-286)

`send_value` computes the wire text with `lispify`; if that raises it
substitutes `"Lispify error: " ++ str(e)` (the message-type byte is already
on the stream at that point, so only the text can change).  It then prints
the result of Python `len` on the text — the number of characters, i.e.
code points — as a decimal line and writes the text, flushing. -/

/-- One framed payload on the outbound stream: the declared decimal length
line followed by the payload text. -/
structure Frame where
  declaredLen : Nat
  payload : String
deriving DecidableEq, Repr

/-- A guest→host response: the unframed message-type byte followed by one
frame. -/
structure Response where
  tag : Char
  frame : Frame
deriving DecidableEq, Repr

/-- `send_value` (src/py4cl.py lines 271-286). -/
def send_value (s : GuestState) (value : PyObj) : Frame × GuestState :=
  let r := lispify s value
  let value_str := match r.1 with
    | .ok t => t
    | .error e => "Lispify error: " ++ e
  (⟨value_str.length, value_str⟩, r.2)

/-- `return_error` (src/py4cl.py lines 298-300): error-tag byte then the
framed value. -/
def return_error (s : GuestState) (error : PyObj) : Response × GuestState :=
  let r := send_value s error
  (⟨'e', r.1⟩, r.2)

/-- `return_value` (src/py4cl.py lines 288-296): an `Exception` instance is
diverted to `return_error`; otherwise return-tag byte then the framed
value. -/
def return_value (s : GuestState) (value : PyObj) : Response × GuestState :=
  if value.isExc then return_error s value
  else
    let r := send_value s value
    (⟨'r', r.1⟩, r.2)

/-! ## The dispatch loop (`message_dispatch_loop`, src/py4cl.py lines 309-350)

A loop iteration reads one command byte and acts on it.  The inbound
stream is modelled as a list of parsed commands; evaluation of host-sent
source text is external to the embedding, so an `e`/`x` command carries
the outcome of running that text: a value, a raised `Exception` (with its
`str`), or a `KeyboardInterrupt` arriving during the iteration.  Reading
past the end of the list models a closed stdin: Python's `read(1)` then
returns the empty string forever. -/

inductive EvalOutcome : Type where
  | ok (v : PyObj) : EvalOutcome
  | exn (msg : String) : EvalOutcome
  | interrupt : EvalOutcome

inductive HostCmd : Type where
  | cmdE (outcome : EvalOutcome) : HostCmd
  | cmdX (outcome : EvalOutcome) : HostCmd
  | cmdQ : HostCmd
  | cmdR (v : PyObj) : HostCmd
  | cmdO : HostCmd
  | cmdo : HostCmd
  | other (byte : String) : HostCmd

/-- `sys.stdin.read(1)`: the next command, or the unknown command `""` when
the stream is exhausted (a closed stream stays exhausted). -/
def readCmd : List HostCmd → HostCmd × List HostCmd
  | [] => (.other "", [])
  | c :: cs => (c, cs)

/-- Result of one or more iterations of the loop: still looping (`cont`),
process terminated by `q` (`halt`), or a value propagated to the caller by
`r` (`ret`).  `responses` collects the guest→host responses emitted. -/
inductive StepResult : Type where
  | cont (inp : List HostCmd) (s : GuestState) (out : List Response) : StepResult
  | halt (out : List Response) : StepResult
  | ret (v : PyObj) (inp : List HostCmd) (s : GuestState) (out : List Response) : StepResult

/-- The responses emitted by a (multi-)step of the loop. -/
def StepResult.responses : StepResult → List Response
  | .cont _ _ out => out
  | .halt out => out
  | .ret _ _ _ out => out

/-- One iteration of `message_dispatch_loop`.  The `try` block covers the
whole iteration; `except KeyboardInterrupt` answers with
`return_value(None)` and `except Exception` with `return_error(e)`, both
continuing the loop.  `exit(0)` under `q` raises `SystemExit`, which
neither handler catches, terminating the process. -/
def dispatchStep (inp : List HostCmd) (s : GuestState) : StepResult :=
  match readCmd inp with
  | (.cmdE outcome, rest) =>
    match outcome with
    | .ok v => let r := return_value s v; .cont rest r.2 [r.1]
    | .exn m => let r := return_error s (.exc m); .cont rest r.2 [r.1]
    | .interrupt => let r := return_value s .none; .cont rest r.2 [r.1]
  | (.cmdX outcome, rest) =>
    match outcome with
    | .ok _ => let r := return_value s .none; .cont rest r.2 [r.1]
    | .exn m => let r := return_error s (.exc m); .cont rest r.2 [r.1]
    | .interrupt => let r := return_value s .none; .cont rest r.2 [r.1]
  | (.cmdQ, _) => .halt []
  | (.cmdR v, rest) => .ret v rest s []
  | (.cmdO, rest) => .cont rest { s with return_values := s.return_values + 1 } []
  | (.cmdo, rest) => .cont rest { s with return_values := s.return_values - 1 } []
  | (.other b, rest) =>
    let r := return_error s (.str ("Unknown message type \"" ++ b ++ "\""))
    .cont rest r.2 [r.1]

/-- `n` iterations of the loop (stopping early on `q` or `r`), with the
emitted responses concatenated in order. -/
def dispatchN : Nat → List HostCmd → GuestState → StepResult
  | 0, inp, s => .cont inp s []
  | n + 1, inp, s =>
    match dispatchStep inp s with
    | .cont inp' s' out =>
      match dispatchN n inp' s' with
      | .cont inp'' s'' out' => .cont inp'' s'' (out ++ out')
      | .halt out' => .halt (out ++ out')
      | .ret v i sr out' => .ret v i sr (out ++ out')
    | r => r

/-! ## The callback proxy (`LispCallbackObject.__call__`, src/py4cl.py
lines 70-94)

The call packs keyword arguments as `Symbol(":" + key), value` pairs after
the positional arguments, saves `return_values`, and inside
`try ... finally` sets it to 0, writes the `c` byte and sends the framed
`(handle, allargs)` pair; the `finally` restores the saved counter.  Only
then does it invoke `message_dispatch_loop()` to wait for the result, so
the nested loop runs *after* the restore. -/

/-- Append keyword arguments as keyword-symbol/value pairs. -/
def pyAllArgs (args : List PyObj) (kwargs : List (String × PyObj)) : List PyObj :=
  args ++ kwargs.flatMap (fun kv => [PyObj.symbol (":" ++ kv.1), kv.2])

/-- Embed a Lean list of values as a `PyObjList`. -/
def pyListOf : List PyObj → PyObjList
  | [] => .nil
  | x :: xs => .cons x (pyListOf xs)

/-- The observable effect of `LispCallbackObject.__call__` up to the point
where the nested `message_dispatch_loop()` is entered: the state in which
the argument tuple is encoded, the emitted `c` response, and the state the
nested loop starts from. -/
structure CallbackCall where
  sendState : GuestState
  response : Response
  loopEntryState : GuestState

/-- `LispCallbackObject.__call__` (src/py4cl.py lines 70-94), up to the
entry of the nested dispatch loop.  `send_value` cannot raise (it catches
every encoding exception internally), so the `finally` runs on the normal
path; channel I/O failures are fatal and outside the model. -/
def callbackCall (s : GuestState) (handle : Nat) (args : List PyObj)
    (kwargs : List (String × PyObj)) : CallbackCall :=
  let old_return_values := s.return_values
  let s1 := { s with return_values := 0 }
  let r := send_value s1
    (.tuple (pyListOf [.int (Int.ofNat handle), .tuple (pyListOf (pyAllArgs args kwargs))]))
  { sendState := s1, response := ⟨'c', r.1⟩,
    loopEntryState := { r.2 with return_values := old_return_values } }

/-- The value `LispCallbackObject.__call__` returns is the value of
`message_dispatch_loop()` run from the post-restore state. -/
def callbackRun (s : GuestState) (handle : Nat) (args : List PyObj)
    (kwargs : List (String × PyObj)) (n : Nat) (inp : List HostCmd) : StepResult :=
  dispatchN n inp (callbackCall s handle args kwargs).loopEntryState

/-! ## Handle allocation and release sequences -/

/-- Modelled from the spec: handle release (§4.3 `release(handle)` removes
the entry).  The guest-side deletion of a `python_objects` entry is driven
by statements the host sends for evaluation; only the table itself
(src/py4cl.py lines 353-355) is in the source.  Release does not touch the
`python_handle` counter. -/
def releaseHandle (s : GuestState) (h : Nat) : GuestState :=
  { s with python_objects := s.python_objects.filter (fun p => p.1 ≠ h) }

/-- A host-visible handle-table operation: an encode call that takes the
opaque-handle path, or a release. -/
inductive HOp : Type where
  | alloc (obj : PyObj) : HOp
  | release (h : Nat) : HOp

/-- Run a sequence of handle-table operations, returning the final state
and the handles allocated, in allocation order. -/
def runOps : GuestState → List HOp → GuestState × List Nat
  | s, [] => (s, [])
  | s, .alloc o :: rest =>
    let a := allocate s o
    let r := runOps a.2 rest
    (r.1, a.1 :: r.2)
  | s, .release h :: rest => runOps (releaseHandle s h) rest

/-! ## A host-side reader for the primitive wire forms -/

mutual

/-- Parse the body of a wire string literal: everything after the opening
quote.  A backslash escapes the next character; the literal must end at
the closing unescaped quote with nothing following. -/
def parseStrBody : List Char → Option (List Char)
  | [] => Option.none
  | c :: cs =>
    if c = '\\' then parseStrEsc cs
    else if c = '"' then (if cs = [] then some [] else Option.none)
    else (parseStrBody cs).map (c :: ·)

/-- Continuation of `parseStrBody` right after a backslash: the next
character is taken literally. -/
def parseStrEsc : List Char → Option (List Char)
  | [] => Option.none
  | d :: ds => (parseStrBody ds).map (d :: ·)

end

/-- Parse wire text as an optionally negated decimal integer. -/
def readIntStr (s : String) : Option Int :=
  match s.data with
  | [] => Option.none
  | c :: rest =>
    if c = '-' then (parseNatChars rest).map (fun k => -(Int.ofNat k))
    else (parseNatChars (c :: rest)).map Int.ofNat

/-- Modelled from the spec: the host-side reader for the primitive wire
forms, which is not part of this repository (§1 places the host
implementation out of scope; §4.2/§6 fix the wire syntax the reader must
accept: `T`/`NIL` for the booleans, decimal integers, and double-quoted
strings with backslash escapes for backslash and quote). -/
def readWire (s : String) : Option PyObj :=
  if s = "T" then some (.bool true)
  else if s = "NIL" then some (.bool false)
  else
    match s.data with
    | [] => Option.none
    | c :: rest =>
      if c = '"' then (parseStrBody rest).map (fun l => .str (String.mk l))
      else (readIntStr s).map .int

/-- The command bytes whose dispatch-loop branch answers with a response
frame: `e`, `x` and any unknown byte (`q` exits, `r` returns to the caller,
`O`/`o` only adjust the return-mode counter). -/
def HostCmd.respondsOnce : HostCmd → Prop
  | .cmdE _ => True
  | .cmdX _ => True
  | .other _ => True
  | _ => False

/-! ## Helper lemmas: decimal printing round-trips through decimal parsing -/

theorem charToDigit_digitChar : ∀ k, k < 10 → charToDigit (Nat.digitChar k) = some k := by
  decide

theorem digitChar_notin : ∀ k, k < 10 →
    Nat.digitChar k ≠ '-' ∧ Nat.digitChar k ≠ 'T' ∧ Nat.digitChar k ≠ 'N' ∧
    Nat.digitChar k ≠ '"' := by
  decide

theorem parseNatAux_append (l₁ l₂ : List Char) (acc m : Nat)
    (h : parseNatAux l₁ acc = some m) :
    parseNatAux (l₁ ++ l₂) acc = parseNatAux l₂ m := by
  induction l₁ generalizing acc with
  | nil =>
    simp only [parseNatAux, Option.some.injEq] at h
    simp [h]
  | cons c cs ih =>
    simp only [parseNatAux, List.cons_append] at h ⊢
    cases hc : charToDigit c with
    | none => simp only [hc] at h
              exact Option.noConfusion h
    | some d =>
      simp only [hc] at h ⊢
      exact ih _ h

theorem natDigitsFuel_parse (fuel : Nat) : ∀ n acc, n ≤ fuel →
    parseNatAux (natDigitsFuel fuel n).reverse acc =
      some (acc * 10 ^ (natDigitsFuel fuel n).length + n) := by
  induction fuel with
  | zero =>
    intro n acc h
    have hn : n = 0 := Nat.le_zero.mp h
    subst hn
    simp [natDigitsFuel, parseNatAux]
  | succ fuel ih =>
    intro n acc h
    match n with
    | 0 => simp [natDigitsFuel, parseNatAux]
    | m + 1 =>
      have hdiv : (m + 1) / 10 ≤ fuel := by
        have h1 : (m + 1) / 10 < m + 1 := Nat.div_lt_self (Nat.succ_pos m) (by norm_num)
        omega
      rw [natDigitsFuel, List.reverse_cons,
        parseNatAux_append _ _ acc _ (ih _ acc hdiv)]
      simp only [parseNatAux,
        charToDigit_digitChar ((m + 1) % 10) (Nat.mod_lt _ (by norm_num)),
        Option.some.injEq, List.length_cons, pow_succ, ← mul_assoc]
      generalize acc * 10 ^ (natDigitsFuel fuel ((m + 1) / 10)).length = A
      omega

theorem parseNatChars_pyNatStr (n : Nat) : parseNatChars (pyNatStr n).data = some n := by
  by_cases h : n = 0
  · subst h; rfl
  · unfold pyNatStr
    rw [if_neg h]
    show parseNatChars (natDigitsFuel n n).reverse = some n
    have hne : natDigitsFuel n n ≠ [] := by
      match n, h with
      | m + 1, _ => simp [natDigitsFuel]
    unfold parseNatChars
    rw [if_neg (by simpa using hne)]
    simpa using natDigitsFuel_parse n n 0 (le_refl n)

theorem natDigitsFuel_digits : ∀ fuel n c, c ∈ natDigitsFuel fuel n →
    ∃ k, k < 10 ∧ c = Nat.digitChar k := by
  intro fuel
  induction fuel with
  | zero => intro n c hc; simp [natDigitsFuel] at hc
  | succ fuel ih =>
    intro n c hc
    match n with
    | 0 => simp [natDigitsFuel] at hc
    | m + 1 =>
      rw [natDigitsFuel] at hc
      rcases List.mem_cons.mp hc with h | h
      · exact ⟨(m + 1) % 10, Nat.mod_lt _ (by norm_num), h⟩
      · exact ih _ _ h

theorem pyNatStr_data_shape (n : Nat) : ∃ c cs, (pyNatStr n).data = c :: cs ∧
    ∃ k, k < 10 ∧ c = Nat.digitChar k := by
  by_cases h : n = 0
  · subst h; exact ⟨'0', [], rfl, 0, by norm_num, rfl⟩
  · unfold pyNatStr
    rw [if_neg h]
    have hne : natDigitsFuel n n ≠ [] := by
      match n, h with
      | m + 1, _ => simp [natDigitsFuel]
    match hrev : (natDigitsFuel n n).reverse with
    | [] => exact absurd (by simpa using hrev) hne
    | c :: cs =>
      refine ⟨c, cs, by rw [← hrev], ?_⟩
      have hc : c ∈ natDigitsFuel n n := by
        have : c ∈ (natDigitsFuel n n).reverse := by
          rw [hrev]; exact List.mem_cons_self _ _
        simpa using this
      exact natDigitsFuel_digits _ _ _ hc

theorem pyIntStr_data_shape (n : Int) : ∃ c cs, (pyIntStr n).data = c :: cs ∧
    (c = '-' ∨ ∃ k, k < 10 ∧ c = Nat.digitChar k) := by
  unfold pyIntStr
  by_cases h : n < 0
  · rw [if_pos h]
    exact ⟨'-', (pyNatStr n.natAbs).data, by rw [String.data_append]; rfl, Or.inl rfl⟩
  · rw [if_neg h]
    obtain ⟨c, cs, hd, hdig⟩ := pyNatStr_data_shape n.toNat
    exact ⟨c, cs, hd, Or.inr hdig⟩

theorem readIntStr_eq (s : String) (c : Char) (cs : List Char) (h : s.data = c :: cs) :
    readIntStr s = if c = '-' then (parseNatChars cs).map (fun k => -(Int.ofNat k))
                   else (parseNatChars (c :: cs)).map Int.ofNat := by
  unfold readIntStr
  rw [h]

theorem readIntStr_pyIntStr (n : Int) : readIntStr (pyIntStr n) = some n := by
  by_cases h : n < 0
  · have hd : (pyIntStr n).data = '-' :: (pyNatStr n.natAbs).data := by
      unfold pyIntStr
      rw [if_pos h, String.data_append]
      rfl
    have hval : -(Int.ofNat n.natAbs) = n := by rw [Int.ofNat_eq_natCast]; omega
    rw [readIntStr_eq _ _ _ hd, if_pos rfl, parseNatChars_pyNatStr,
      Option.map_some', hval]
  · obtain ⟨c, cs, hd, k, hk, hck⟩ := pyNatStr_data_shape n.toNat
    have hd' : (pyIntStr n).data = c :: cs := by
      unfold pyIntStr
      rw [if_neg h]
      exact hd
    have hcne : c ≠ '-' := hck ▸ (digitChar_notin k hk).1
    have hval : Int.ofNat n.toNat = n := by rw [Int.ofNat_eq_natCast]; omega
    rw [readIntStr_eq _ _ _ hd', if_neg hcne, ← hd,
      parseNatChars_pyNatStr, Option.map_some', hval]

/-! ## Helper lemmas: string escaping round-trips through the reader -/

theorem parseStrBody_escChars (l : List Char) :
    parseStrBody (escChars l ++ ['"']) = some l := by
  induction l with
  | nil => rfl
  | cons c cs ih =>
    by_cases h1 : c = '\\'
    · subst h1
      simp [escChars, parseStrBody, parseStrEsc, ih]
    · by_cases h2 : c = '"'
      · subst h2
        simp [escChars, parseStrBody, parseStrEsc, h1, ih]
      · simp [escChars, parseStrBody, h1, h2, ih]

theorem wireStr_data (t : String) :
    ("\"" ++ escapeString t ++ "\"").data = '"' :: (escChars t.data ++ ['"']) := by
  rw [String.data_append, String.data_append]
  rfl

theorem readWire_wireStr (t : String) :
    readWire ("\"" ++ escapeString t ++ "\"") = some (.str t) := by
  have hd := wireStr_data t
  have hT : ("\"" ++ escapeString t ++ "\"") ≠ "T" := by
    intro he
    have : ('"' :: (escChars t.data ++ ['"']) : List Char) = ['T'] := by
      rw [← hd, he]
    simp at this
  have hN : ("\"" ++ escapeString t ++ "\"") ≠ "NIL" := by
    intro he
    have : ('"' :: (escChars t.data ++ ['"']) : List Char) = ['N', 'I', 'L'] := by
      rw [← hd, he]
    simp at this
  unfold readWire
  rw [if_neg hT, if_neg hN, hd]
  simp only [parseStrBody_escChars, Option.map_some', if_true, reduceIte]

theorem readWire_pyIntStr (n : Int) : readWire (pyIntStr n) = some (.int n) := by
  obtain ⟨c, cs, hd, hc⟩ := pyIntStr_data_shape n
  have hcT : c ≠ 'T' := by
    rcases hc with h | ⟨k, hk, rfl⟩
    · subst h; decide
    · exact (digitChar_notin k hk).2.1
  have hcN : c ≠ 'N' := by
    rcases hc with h | ⟨k, hk, rfl⟩
    · subst h; decide
    · exact (digitChar_notin k hk).2.2.1
  have hcQ : c ≠ '"' := by
    rcases hc with h | ⟨k, hk, rfl⟩
    · subst h; decide
    · exact (digitChar_notin k hk).2.2.2
  have hT : pyIntStr n ≠ "T" := by
    intro he
    have hlist : (c :: cs : List Char) = ['T'] := by rw [← hd, he]
    exact hcT (List.cons_eq_cons.mp hlist).1
  have hN : pyIntStr n ≠ "NIL" := by
    intro he
    have hlist : (c :: cs : List Char) = ['N', 'I', 'L'] := by rw [← hd, he]
    exact hcN (List.cons_eq_cons.mp hlist).1
  unfold readWire
  rw [if_neg hT, if_neg hN, hd]
  simp [hcQ, readIntStr_pyIntStr]

/-! ## Helper lemmas: encoding of exceptions, ASCII frames -/

theorem lispify_exc (s : GuestState) (m : String) : lispify s (.exc m) = (.ok m, s) := by
  show (if s.return_values > 0
      then ((Except.ok m, s) : Except String String × GuestState)
      else (Except.ok m, s)) = (Except.ok m, s)
  exact ite_self _

theorem lispify_excBadStr (s : GuestState) (m : String) :
    lispify s (.excBadStr m) = (.error m, s) := by
  show (if s.return_values > 0
      then ((Except.error m, s) : Except String String × GuestState)
      else (Except.error m, s)) = (Except.error m, s)
  exact ite_self _

theorem send_value_exc (s : GuestState) (m : String) :
    send_value s (.exc m) = (⟨m.length, m⟩, s) := by
  unfold send_value
  rw [lispify_exc]

theorem return_error_exc (s : GuestState) (m : String) :
    return_error s (.exc m) = (⟨'e', ⟨m.length, m⟩⟩, s) := by
  unfold return_error
  rw [send_value_exc]

theorem utf8Size_of_ascii (c : Char) (h : c.toNat < 128) : c.utf8Size = 1 := by
  unfold Char.utf8Size
  rw [if_pos]
  rw [UInt32.le_def, BitVec.le_def]
  exact Nat.le_of_lt_succ h

theorem utf8ByteSize_go_ascii (l : List Char) (h : ∀ c ∈ l, c.toNat < 128) :
    String.utf8ByteSize.go l = l.length := by
  induction l with
  | nil => rfl
  | cons c cs ih =>
    show String.utf8ByteSize.go cs + c.utf8Size = cs.length + 1
    rw [utf8Size_of_ascii c (h c (List.mem_cons_self c cs)),
      ih (fun d hd => h d (List.mem_cons_of_mem c hd))]

theorem utf8ByteSize_ascii (t : String) (h : ∀ c ∈ t.data, c.toNat < 128) :
    t.utf8ByteSize = t.length :=
  utf8ByteSize_go_ascii t.data h

/-! ## Helper lemmas: handle allocation sequences -/

theorem runOps_spec : ∀ (ops : List HOp) (s : GuestState),
    s.python_handle ≤ (runOps s ops).1.python_handle ∧
    ∀ h, h ∈ (runOps s ops).2 →
      s.python_handle ≤ h ∧ h < (runOps s ops).1.python_handle := by
  intro ops
  induction ops with
  | nil =>
    intro s
    exact ⟨Nat.le_refl _, fun h hm => absurd hm (by simp [runOps])⟩
  | cons op rest ih =>
    intro s
    cases op with
    | alloc o =>
      obtain ⟨ihle, ihmem⟩ := ih (allocate s o).2
      have hle : s.python_handle + 1 ≤ (runOps (allocate s o).2 rest).1.python_handle :=
        ihle
      have hfin : (runOps s (.alloc o :: rest)).1 = (runOps (allocate s o).2 rest).1 :=
        rfl
      have hlist : (runOps s (.alloc o :: rest)).2
          = s.python_handle :: (runOps (allocate s o).2 rest).2 := rfl
      rw [hfin, hlist]
      refine ⟨Nat.le_trans (Nat.le_succ _) hle, ?_⟩
      intro h hm
      rcases List.mem_cons.mp hm with rfl | hm'
      · exact ⟨Nat.le_refl _, Nat.lt_of_succ_le hle⟩
      · obtain ⟨h1, h2⟩ := ihmem h hm'
        exact ⟨Nat.le_trans (Nat.le_succ _) h1, h2⟩
    | release hh => exact ih (releaseHandle s hh)

theorem runOps_pairwise : ∀ (ops : List HOp) (s : GuestState),
    ((runOps s ops).2).Pairwise (· < ·) := by
  intro ops
  induction ops with
  | nil => intro s; exact List.Pairwise.nil
  | cons op rest ih =>
    intro s
    cases op with
    | alloc o =>
      have hlist : (runOps s (.alloc o :: rest)).2
          = s.python_handle :: (runOps (allocate s o).2 rest).2 := rfl
      rw [hlist]
      refine List.Pairwise.cons ?_ (ih _)
      intro h hm
      have h1 := ((runOps_spec rest (allocate s o).2).2 h hm).1
      exact Nat.lt_of_succ_le h1
    | release hh => exact ih (releaseHandle s hh)

/-! ## The claims -/

/-- **C1** (corrected).  `LispCallbackObject.__call__` saves the
return-mode counter and sets it to 0 only while the call command and its
encoded arguments are sent: the argument tuple is encoded in a state whose
counter is 0, the committed message-type byte is `c`, and the `finally`
restores the saved outer counter *before* the nested
`message_dispatch_loop()` invocation, so the nested loop runs with the
outer counter value (in the model `send_value` cannot raise — it catches
every encoding error — so the `finally` restore is reached on every
path). -/
theorem c1_callback_counter_scope :
    ∀ (s : GuestState) (handle : Nat) (args : List PyObj)
      (kwargs : List (String × PyObj)),
      (callbackCall s handle args kwargs).sendState.return_values = 0 ∧
      (callbackCall s handle args kwargs).loopEntryState.return_values
        = s.return_values ∧
      (callbackCall s handle args kwargs).response.tag = 'c' := by
  intro s handle args kwargs
  exact ⟨rfl, rfl, rfl⟩

/-- **C1** counterexample.  With outer counter 1, the state in which the
nested dispatch loop (the one that waits for the call's result) runs still
has counter 1 — not 0 as the claim requires for the entire duration of the
nested call. -/
theorem c1_counterexample :
    (callbackCall ⟨1, 0, []⟩ 0 [] []).loopEntryState.return_values = 1 ∧
    ¬ (callbackCall ⟨1, 0, []⟩ 0 [] []).loopEntryState.return_values = 0 := by
  exact ⟨rfl, by decide⟩

/-- **C2** counterexample.  The `O` command branch only increments the
return-mode counter: it sends no response frame at all before the loop
reads the next command, refuting "exactly one response" for `O`. -/
theorem c2_counterexample :
    (dispatchStep [HostCmd.cmdO] initState).responses = [] := rfl

/-- **C2** (amended).  Every `e`, `x` or unknown command is answered with
exactly one response frame before the loop reads the next command; the
`O` and `o` branches answer with no frame at all. -/
theorem c2_one_response_per_command :
    (∀ (c : HostCmd) (inp : List HostCmd) (s : GuestState), c.respondsOnce →
      ∃ s' r, dispatchStep (c :: inp) s = .cont inp s' [r]) ∧
    (∀ (inp : List HostCmd) (s : GuestState),
      (dispatchStep (HostCmd.cmdO :: inp) s).responses = [] ∧
      (dispatchStep (HostCmd.cmdo :: inp) s).responses = []) := by
  constructor
  · intro c inp s hc
    cases c with
    | cmdE outcome =>
      cases outcome with
      | ok v => exact ⟨(return_value s v).2, (return_value s v).1, rfl⟩
      | exn m =>
        exact ⟨(return_error s (.exc m)).2, (return_error s (.exc m)).1, rfl⟩
      | interrupt =>
        exact ⟨(return_value s .none).2, (return_value s .none).1, rfl⟩
    | cmdX outcome =>
      cases outcome with
      | ok v => exact ⟨(return_value s .none).2, (return_value s .none).1, rfl⟩
      | exn m =>
        exact ⟨(return_error s (.exc m)).2, (return_error s (.exc m)).1, rfl⟩
      | interrupt =>
        exact ⟨(return_value s .none).2, (return_value s .none).1, rfl⟩
    | other b =>
      exact ⟨(return_error s (.str ("Unknown message type \"" ++ b ++ "\""))).2,
        (return_error s (.str ("Unknown message type \"" ++ b ++ "\""))).1, rfl⟩
    | cmdQ => exact hc.elim
    | cmdR v => exact hc.elim
    | cmdO => exact hc.elim
    | cmdo => exact hc.elim
  · intro inp s
    exact ⟨rfl, rfl⟩

/-- Witness for the C2 theorem at the concrete unknown byte `z`. -/
theorem c2_one_response_per_command_witness :
    ∃ s' r, dispatchStep [HostCmd.other "z"] initState = .cont [] s' [r] :=
  c2_one_response_per_command.1 (HostCmd.other "z") [] initState trivial

/-- **C3** counterexample.  For the one-character non-ASCII string `é` the
payload is the four-UTF-8-byte text `"é"` but the declared decimal length
is 3 — Python's `len`, the number of code points — so the declared length
is not the UTF-8 byte length. -/
theorem c3_counterexample :
    (send_value initState (PyObj.str "é")).1.declaredLen = 3 ∧
    (send_value initState (PyObj.str "é")).1.payload.utf8ByteSize = 4 ∧
    (send_value initState (PyObj.str "é")).1.declaredLen ≠
      (send_value initState (PyObj.str "é")).1.payload.utf8ByteSize := by
  exact ⟨rfl, rfl, by decide⟩

/-- **C3** (amended).  Every frame declares the number of code points of
its payload (Python `len`), followed by the payload and a flush; the
declared count equals the UTF-8 byte length exactly when the payload is
ASCII. -/
theorem c3_frame_length :
    (∀ (s : GuestState) (v : PyObj),
      (send_value s v).1.declaredLen = (send_value s v).1.payload.length) ∧
    (∀ (s : GuestState) (v : PyObj),
      (∀ c ∈ (send_value s v).1.payload.data, c.toNat < 128) →
        (send_value s v).1.declaredLen = (send_value s v).1.payload.utf8ByteSize) := by
  constructor
  · intro s v
    rfl
  · intro s v h
    rw [utf8ByteSize_ascii _ h]
    rfl

/-- Witness for the C3 theorem at the ASCII payload of the integer 5. -/
theorem c3_frame_length_witness :
    (send_value initState (PyObj.int 5)).1.declaredLen =
      (send_value initState (PyObj.int 5)).1.payload.utf8ByteSize :=
  c3_frame_length.2 initState (PyObj.int 5) (by decide)

/-- **C4** counterexample.  The null value encodes to the wire text
`"None"` — a quoted string literal — which a reader of the wire syntax
decodes to the *string* `None`, not to null. -/
theorem c4_counterexample :
    readWire (send_value initState PyObj.none).1.payload = some (PyObj.str "None") ∧
    PyObj.str "None" ≠ PyObj.none :=
  ⟨rfl, fun h => PyObj.noConfusion h⟩

/-- **C4** (amended).  Decoding the wire text produced by the encoder with
a reader compatible with the wire syntax is the identity on booleans,
integers and strings (including strings needing escapes); the null value
instead encodes to the quoted string `"None"`, which decodes to the
string `None`. -/
theorem c4_roundtrip :
    (∀ b, readWire (send_value initState (PyObj.bool b)).1.payload
        = some (PyObj.bool b)) ∧
    (∀ n : Int, readWire (send_value initState (PyObj.int n)).1.payload
        = some (PyObj.int n)) ∧
    (∀ t : String, readWire (send_value initState (PyObj.str t)).1.payload
        = some (PyObj.str t)) ∧
    readWire (send_value initState PyObj.none).1.payload
      = some (PyObj.str "None") := by
  refine ⟨?_, ?_, ?_, rfl⟩
  · intro b
    cases b <;> rfl
  · intro n
    show readWire (pyIntStr n) = some (PyObj.int n)
    exact readWire_pyIntStr n
  · intro t
    show readWire ("\"" ++ escapeString t ++ "\"") = some (PyObj.str t)
    exact readWire_wireStr t

/-- **C5** (confirmed).  Over any sequence of handle-path encodes and
releases, the allocated handles are strictly increasing in allocation
order (hence pairwise distinct), each is at least the starting counter and
below the final counter — so a handle released at any point (necessarily
allocated earlier, hence below every later allocation) is never allocated
again, and releases never make a number reusable. -/
theorem c5_handles (ops : List HOp) (s : GuestState) :
    ((runOps s ops).2).Pairwise (· < ·) ∧
    ∀ h, h ∈ (runOps s ops).2 →
      s.python_handle ≤ h ∧ h < (runOps s ops).1.python_handle :=
  ⟨runOps_pairwise ops s, (runOps_spec ops s).2⟩

/-- Witness for the C5 theorem: in alloc–release–alloc from the initial
state, handle 0 is allocated, bounded by the final counter. -/
theorem c5_handles_witness :
    initState.python_handle ≤ 0 ∧
    0 < (runOps initState [HOp.alloc PyObj.none, HOp.release 0,
          HOp.alloc (PyObj.int 5)]).1.python_handle :=
  (c5_handles [HOp.alloc PyObj.none, HOp.release 0, HOp.alloc (PyObj.int 5)]
    initState).2 0 (by decide)

/-- **C6** (confirmed).  `send_value` always emits exactly one well-formed
frame (declared length equal to the payload's character count), and when
the encoder raises, the caught exception is replaced by the literal
descriptive text `Lispify error: ...` as the payload — the already
committed message-type byte is untouched because only the frame text
changes. -/
theorem c6_send_value_always_frames :
    (∀ (s : GuestState) (v : PyObj),
      (send_value s v).1.declaredLen = (send_value s v).1.payload.length) ∧
    (∀ (s : GuestState) (v : PyObj) (e : String), (lispify s v).1 = .error e →
      (send_value s v).1.payload = "Lispify error: " ++ e) := by
  constructor
  · intro s v
    rfl
  · intro s v e he
    show (match (lispify s v).1 with
      | .ok t => t
      | .error err => "Lispify error: " ++ err) = "Lispify error: " ++ e
    rw [he]

/-- Witness for the C6 theorem at an exception object whose `str`
raises. -/
theorem c6_send_value_always_frames_witness :
    (send_value initState (PyObj.excBadStr "boom")).1.payload
      = "Lispify error: " ++ "boom" :=
  c6_send_value_always_frames.2 initState (PyObj.excBadStr "boom") "boom" rfl

/-- **C7** (confirmed).  A `KeyboardInterrupt` raised while an `e` or `x`
command is being evaluated/executed is caught by the loop, answered with a
return frame (tag `r`, not an error tag) carrying the encoded null value,
and the loop continues with the remaining input — the interrupt never
propagates out. -/
theorem c7_interrupt_returns_null :
    ∀ (inp : List HostCmd) (s : GuestState),
      dispatchStep (HostCmd.cmdE .interrupt :: inp) s =
        .cont inp (send_value s PyObj.none).2 [⟨'r', (send_value s PyObj.none).1⟩] ∧
      dispatchStep (HostCmd.cmdX .interrupt :: inp) s =
        .cont inp (send_value s PyObj.none).2 [⟨'r', (send_value s PyObj.none).1⟩] := by
  intro inp s
  exact ⟨rfl, rfl⟩

/-- **C8** (confirmed).  An `e` or `x` command whose evaluation raises an
exception is answered with exactly one error frame whose payload is the
error's text, the state is unchanged, and the loop continues with the
remaining input — the exception does not escape the loop. -/
theorem c8_exception_one_error_frame :
    ∀ (m : String) (inp : List HostCmd) (s : GuestState),
      dispatchStep (HostCmd.cmdE (.exn m) :: inp) s =
        .cont inp s [⟨'e', ⟨m.length, m⟩⟩] ∧
      dispatchStep (HostCmd.cmdX (.exn m) :: inp) s =
        .cont inp s [⟨'e', ⟨m.length, m⟩⟩] := by
  intro m inp s
  have h : return_error s (.exc m) = (⟨'e', ⟨m.length, m⟩⟩, s) := return_error_exc s m
  constructor
  · show StepResult.cont inp (return_error s (.exc m)).2
        [(return_error s (.exc m)).1] = _
    rw [h]
  · show StepResult.cont inp (return_error s (.exc m)).2
        [(return_error s (.exc m)).1] = _
    rw [h]

/-- **C9** (confirmed).  An `e` command that evaluates successfully *to*
an `Exception` instance (returned as a value, not raised) is answered with
an error frame — error tag and the exception's message text — exactly as
if the evaluation had raised, because `return_value` diverts exception
instances to `return_error`. -/
theorem c9_exception_result_is_error_frame :
    ∀ (m : String) (inp : List HostCmd) (s : GuestState),
      dispatchStep (HostCmd.cmdE (.ok (.exc m)) :: inp) s =
        .cont inp s [⟨'e', ⟨m.length, m⟩⟩] := by
  intro m inp s
  show StepResult.cont inp (return_value s (.exc m)).2
      [(return_value s (.exc m)).1] = _
  have h : return_value s (.exc m) = (⟨'e', ⟨m.length, m⟩⟩, s) := return_error_exc s m
  rw [h]

/-- **C10** (confirmed).  When the inbound stream is closed, `read(1)`
yields the empty string, which matches no known command byte: the loop
takes the unknown-command branch, sends one error frame (tag `e`)
reporting the unknown message type, and loops again — it never exits, and
after `n` iterations it has emitted exactly `n` such error frames; from
the initial state each frame is the quoted, escaped
`Unknown message type ""` text. -/
theorem c10_eof_loops_forever :
    (∀ (n : Nat) (s : GuestState), ∃ s' outs,
      dispatchN n [] s = .cont [] s' outs ∧
      outs.map Response.tag = List.replicate n 'e') ∧
    (∀ n : Nat, dispatchN n [] initState =
      .cont [] initState
        (List.replicate n ⟨'e', ⟨27, "\"Unknown message type \\\"\\\"\""⟩⟩)) := by
  have hstep : ∀ s : GuestState, ∃ s' f,
      dispatchStep [] s = .cont [] s' [⟨'e', f⟩] :=
    fun s => ⟨(return_error s (.str ("Unknown message type \"" ++ "" ++ "\""))).2,
      (send_value s (.str ("Unknown message type \"" ++ "" ++ "\""))).1, rfl⟩
  constructor
  · intro n
    induction n with
    | zero => intro s; exact ⟨s, [], rfl, rfl⟩
    | succ n ih =>
      intro s
      obtain ⟨s1, f, hs⟩ := hstep s
      obtain ⟨s2, outs, hrec, htags⟩ := ih s1
      refine ⟨s2, ⟨'e', f⟩ :: outs, ?_, ?_⟩
      · show dispatchN (n + 1) [] s = _
        simp [dispatchN, hs, hrec]
      · simp [htags, List.replicate_succ]
  · intro n
    induction n with
    | zero => rfl
    | succ n ih =>
      have hstep0 : dispatchStep [] initState = .cont [] initState
          [⟨'e', ⟨27, "\"Unknown message type \\\"\\\"\""⟩⟩] := rfl
      show dispatchN (n + 1) [] initState = _
      simp [dispatchN, hstep0, ih, List.replicate_succ]

end Py4cl
